import Mathlib

/-!
# Verification of the media-bridge viewer core

Shallow embedding of the `media_bridge_viewer` package:

* `media_handler.py` — supported-extension checks, media inspection
  (`get_media_info`), the thumbnail cache (`create_thumbnail`,
  `clear_cache`), video-thumbnail frame seeking, and directory
  enumeration (`get_files_in_directory`).
* `remote.py` — `RemoteMediaHandler` (download-then-delegate variants of
  thumbnailing and inspection over a scratch directory) and
  `RemoteMediaViewer._open_file_externally`.
* `cli_viewer.py` — the headless viewer state machine
  (`load_directory`, selection commands, `keep_selected`,
  `delete_selected`).
* `viewer.py` — the GUI viewer state machine (`load_directory`,
  `_toggle_selection`, `_select_all`, `_clear_selection`,
  `_keep_selected`, `_delete_selected`).

External capabilities (filesystem contents, image/video decoders, the
ssh/scp transfer) are parameters of the embedded functions: file
contents are opaque `Nat` tokens, decoded thumbnail objects are opaque
`Nat` tokens, and a decoder is a function from contents to results.
-/

namespace MediaBridge

/-- `MediaHandler.SUPPORTED_IMAGE_FORMATS` (media_handler.py line 17). -/
def SUPPORTED_IMAGE_FORMATS : List String :=
  [".jpg", ".jpeg", ".png", ".gif", ".bmp", ".tiff", ".webp"]

/-- `MediaHandler.SUPPORTED_VIDEO_FORMATS` (media_handler.py line 18). -/
def SUPPORTED_VIDEO_FORMATS : List String :=
  [".mp4", ".avi", ".mov", ".mkv", ".wmv", ".flv", ".webm"]

/-- Characters of the part of a path after the last `/`
(model of `os.path.basename`). -/
def baseNameChars (cs : List Char) : List Char :=
  (cs.reverse.takeWhile (fun c => c ≠ '/')).reverse

/-- Model of `os.path.basename`. -/
def baseName (s : String) : String :=
  String.mk (baseNameChars s.data)

/-- Model of `os.path.splitext(p)[1]` on the characters of `p`: the
extension starts at the last `.` of the basename, provided some non-dot
character of the basename precedes it (Python treats all-leading-dot
names such as `.bashrc` as having no extension). -/
def splitextExtChars (cs : List Char) : List Char :=
  let b := baseNameChars cs
  let tail := b.reverse.takeWhile (fun c => c ≠ '.')
  if tail.length = b.length then []
  else
    let stem := b.take (b.length - tail.length - 1)
    if stem.all (fun c => c = '.') then [] else '.' :: tail.reverse

/-- Model of `os.path.splitext(p)[1]`. -/
def splitextExt (s : String) : String :=
  String.mk (splitextExtChars s.data)

/-- Model of `str.lower` (ASCII case folding suffices for the
extension allow-lists). -/
def lowerStr (s : String) : String :=
  String.mk (s.data.map Char.toLower)

/-- `MediaHandler.is_supported_file` (media_handler.py lines 26-29). -/
def is_supported_file (filepath : String) : Bool :=
  let ext := lowerStr (splitextExt filepath)
  SUPPORTED_IMAGE_FORMATS.contains ext || SUPPORTED_VIDEO_FORMATS.contains ext

/-- `MediaHandler.is_video_file` (media_handler.py lines 31-34). -/
def is_video_file (filepath : String) : Bool :=
  SUPPORTED_VIDEO_FORMATS.contains (lowerStr (splitextExt filepath))

/-- Lookup in the model of the Python `dict` used as `self.cache`. -/
def cacheLookup : List (String × Nat) → String → Option Nat
  | [], _ => none
  | (k, v) :: rest, key => if k = key then some v else cacheLookup rest key

/-- Mutable state of a `MediaHandler`: the thumbnail cache (`self.cache`)
plus an instrumentation counter of how many times a thumbnail was
(re)computed from the file (one per call into
`_create_video_thumbnail`/`_create_image_thumbnail`). -/
structure HState where
  cache : List (String × Nat)
  decodeCalls : Nat
deriving DecidableEq, Repr

/-- `MediaHandler.create_thumbnail` (media_handler.py lines 73-91).
`readThumb` models `_create_video_thumbnail`/`_create_image_thumbnail`
at a path: it reads and decodes the file, returning `none` on any
failure (the Python code catches exceptions and returns `None`). -/
def create_thumbnail (readThumb : String → Option Nat) (st : HState)
    (filepath : String) : Option Nat × HState :=
  match cacheLookup st.cache filepath with
  | some t => (some t, st)
  | none =>
    let st1 : HState := { st with decodeCalls := st.decodeCalls + 1 }
    match readThumb filepath with
    | some t => (some t, { st1 with cache := (filepath, t) :: st1.cache })
    | none => (none, st1)

/-- `MediaHandler.clear_cache` (media_handler.py lines 188-190). -/
def clear_cache (st : HState) : HState :=
  { st with cache := [] }

/-- Run a sequence of `create_thumbnail` fetches, keeping only the state. -/
def runFetches (readThumb : String → Option Nat) (fps : List String)
    (st : HState) : HState :=
  fps.foldl (fun s q => (create_thumbnail readThumb s q).2) st

/-- Frame-seek target of `MediaHandler._create_video_thumbnail`
(media_handler.py line 101): `target_frame = max(1, int(frame_count * 0.1))`,
with `int(frame_count * 0.1)` modelled as exact truncated division by ten. -/
def target_frame (frame_count : Nat) : Nat :=
  max 1 (frame_count / 10)

/-- A file on disk (local or remote): its byte size and its opaque
contents token. -/
structure File where
  size : Nat
  content : Nat
deriving DecidableEq, Repr

/-- Properties `cv2.VideoCapture` reports for an opened video. -/
structure VideoProps where
  width : Nat
  height : Nat
  fps : ℚ
  frame_count : Nat
deriving DecidableEq, Repr

/-- The Python dict returned by `MediaHandler.get_media_info`; a key
absent from the dict is a field equal to `none`. -/
structure MediaInfo where
  error : Option String := none
  filepath : Option String := none
  filename : Option String := none
  size : Option Nat := none
  type : Option String := none
  supported : Option Bool := none
  width : Option Nat := none
  height : Option Nat := none
  fps : Option ℚ := none
  frame_count : Option Nat := none
  duration : Option ℚ := none
  format : Option String := none
deriving DecidableEq, Repr

/-- `MediaHandler.get_media_info` (media_handler.py lines 41-71).
Oracles: `fs` is the local filesystem (`none` = `os.path.exists` false);
`videoOpen` models `cv2.VideoCapture` on the file's contents
(`Except.error e` = an exception with message `e`, `.ok none` =
`cap.isOpened()` false, `.ok (some p)` = opened with properties `p`);
`imageOpen` models `PIL.Image.open` (`Except.error e` = an exception
with message `e`, `.ok (w, h, fmt)` = header dimensions and format). -/
def get_media_info (fs : String → Option File)
    (videoOpen : Nat → Except String (Option VideoProps))
    (imageOpen : Nat → Except String (Nat × Nat × String))
    (filepath : String) : MediaInfo :=
  match fs filepath with
  | none => { error := some "File not found" }
  | some f =>
    let base : MediaInfo :=
      { filepath := some filepath
        filename := some (baseName filepath)
        size := some f.size
        type := some (if is_video_file filepath then "video" else "image")
        supported := some (is_supported_file filepath) }
    if is_video_file filepath then
      match videoOpen f.content with
      | .error e => { base with error := some e }
      | .ok none => base
      | .ok (some p) =>
        { base with
            width := some p.width
            height := some p.height
            fps := some p.fps
            frame_count := some p.frame_count
            duration := some (if 0 < p.fps then (p.frame_count : ℚ) / p.fps else 0) }
    else
      match imageOpen f.content with
      | .error e => { base with error := some e }
      | .ok (w, h, fmt) =>
        { base with width := some w, height := some h, format := some fmt }

/-! ## Remote bridge (remote.py)

`RemoteMediaHandler` keeps a scratch directory `self.temp_dir`
(`tempfile.mkdtemp(prefix="media_bridge_")`); we model its path as the
constant `tempDir` and its contents as an association list from local
path to contents token.  A successful `scp` download of remote path
`fp` materialises the remote file's contents at
`temp_dir/basename(fp)`, overwriting any previous file of that name;
the remote filesystem is the oracle `remoteFS`, and `remoteFS fp = none`
models a failed transfer (non-zero exit or timeout). -/

/-- Model of `self.temp_dir` from `tempfile.mkdtemp(prefix="media_bridge_")`. -/
def tempDir : String := "/tmp/media_bridge_x"

/-- The local scratch path `os.path.join(self.temp_dir, os.path.basename(filepath))`. -/
def localPathOf (filepath : String) : String :=
  tempDir ++ "/" ++ baseName filepath

/-- Store (or overwrite) a file in the scratch directory. -/
def scratchStore (scratch : List (String × File)) (k : String) (v : File) :
    List (String × File) :=
  (k, v) :: scratch.filter (fun p => p.1 ≠ k)

/-- `if os.path.exists(local_path): os.remove(local_path)` on the scratch
directory. -/
def scratchRemove (scratch : List (String × File)) (k : String) :
    List (String × File) :=
  scratch.filter (fun p => p.1 ≠ k)

/-- Lookup in the scratch directory. -/
def scratchLookup : List (String × File) → String → Option File
  | [], _ => none
  | (k, v) :: rest, key => if k = key then some v else scratchLookup rest key

/-- State of a `RemoteMediaHandler`: the inherited `MediaHandler` state
plus the scratch directory contents. -/
structure RState where
  core : HState
  scratch : List (String × File)
deriving DecidableEq, Repr

/-- `RemoteMediaHandler.create_thumbnail` (remote.py lines 96-113):
download to `temp_dir/basename(filepath)`; on download failure return
`None`; otherwise delegate to `MediaHandler.create_thumbnail` on the
local path and finally delete the scratch copy.  `decodeContent`
models thumbnail decoding of file contents (`none` = decode failure). -/
def remote_create_thumbnail (remoteFS : String → Option File)
    (decodeContent : Nat → Option Nat) (st : RState) (filepath : String) :
    Option Nat × RState :=
  let local_path := localPathOf filepath
  match remoteFS filepath with
  | none => (none, st)
  | some f =>
    let scr := scratchStore st.scratch local_path f
    let res := create_thumbnail
      (fun p => (scratchLookup scr p).bind (fun g => decodeContent g.content))
      st.core local_path
    (res.1, { core := res.2, scratch := scratchRemove scr local_path })

/-- `RemoteMediaHandler.get_media_info` (remote.py lines 115-131):
download to the scratch path; on download failure return
`{"error": "Could not download file"}`; otherwise delegate to
`MediaHandler.get_media_info` on the local path and finally delete the
scratch copy. -/
def remote_get_media_info (remoteFS : String → Option File)
    (videoOpen : Nat → Except String (Option VideoProps))
    (imageOpen : Nat → Except String (Nat × Nat × String))
    (st : RState) (filepath : String) : MediaInfo × RState :=
  let local_path := localPathOf filepath
  match remoteFS filepath with
  | none => ({ error := some "Could not download file" }, st)
  | some f =>
    let scr := scratchStore st.scratch local_path f
    let info := get_media_info (fun p => scratchLookup scr p)
      videoOpen imageOpen local_path
    (info, { st with scratch := scratchRemove scr local_path })

/-- `RemoteMediaViewer._open_file_externally` (remote.py lines 155-181):
download to the scratch path and hand the local copy to the system
opener; the scratch copy is not deleted.  Returns whether the download
succeeded. -/
def open_file_externally (remoteFS : String → Option File) (st : RState)
    (filepath : String) : Bool × RState :=
  let local_path := localPathOf filepath
  match remoteFS filepath with
  | none => (false, st)
  | some f =>
    (true, { st with scratch := scratchStore st.scratch local_path f })

/-! ## Local directory enumeration (media_handler.py lines 167-186)

The filesystem is passed in as data: for the recursive mode the output
of `os.walk(directory)` as a list of `(root, filenames)` pairs, and for
the non-recursive mode the output of `os.listdir(directory)` as a list
of `(name, isfile)` pairs, with `none` modelling an
`OSError`/`PermissionError` raised by `os.listdir` (the code swallows
it, leaving `files` empty). -/

/-- Model of `os.path.join(root, filename)` for the names `os.walk` and
`os.listdir` produce (never absolute, roots without a trailing slash). -/
def joinPath (root name : String) : String :=
  root ++ "/" ++ name

/-- `MediaHandler.get_files_in_directory` (media_handler.py lines
167-186): collect supported files, then return `sorted(files)`. -/
def get_files_in_directory (directory : String) (recursive : Bool)
    (walk : List (String × List String))
    (listing : Option (List (String × Bool))) : List String :=
  let files : List String :=
    if recursive then
      walk.flatMap fun rn =>
        (rn.2.filter fun n => is_supported_file (joinPath rn.1 n)).map
          fun n => joinPath rn.1 n
    else
      match listing with
      | none => []
      | some entries =>
        (entries.filter fun e => e.2 && is_supported_file (joinPath directory e.1)).map
          fun e => joinPath directory e.1
  files.mergeSort

/-! ## Headless viewer state machine (cli_viewer.py)

`self.selected_files` is a Python `set`; it is modelled as a
duplicate-free list.  `self.media_files` is a Python list. -/

/-- `set.add` on the duplicate-free list model of a Python set. -/
def setInsert (a : String) (l : List String) : List String :=
  if a ∈ l then l else a :: l

/-- `set.remove`/`set.discard` on the list model of a Python set. -/
def setErase (l : List String) (a : String) : List String :=
  l.filter fun x => x ≠ a

/-- Python `list.remove`: drop the first occurrence. -/
def listRemove : List String → String → List String
  | [], _ => []
  | x :: xs, a => if x = a then xs else x :: listRemove xs a

/-- State of a `CLIMediaViewer`: the ordered file list and the selection
set (cli_viewer.py lines 18-19). -/
structure CLIState where
  media_files : List String
  selected_files : List String
deriving DecidableEq, Repr

/-- `CLIMediaViewer.load_directory` (cli_viewer.py lines 22-38): if the
directory does not exist the state is untouched; otherwise
`self.media_files` is replaced by the enumeration result.
`self.selected_files` is never modified. -/
def cli_load_directory (dirExists : Bool) (files : List String)
    (st : CLIState) : CLIState :=
  if dirExists then { st with media_files := files } else st

/-- `CLIMediaViewer.select_files` (cli_viewer.py lines 120-132): add
`media_files[num - 1]` to the selection for each in-range number. -/
def cli_select_files (nums : List Nat) (st : CLIState) : CLIState :=
  { st with
      selected_files := nums.foldl
        (fun sel num =>
          match st.media_files[num - 1]? with
          | some fp => if 1 ≤ num then setInsert fp sel else sel
          | none => sel)
        st.selected_files }

/-- `CLIMediaViewer.deselect_files` (cli_viewer.py lines 134-147). -/
def cli_deselect_files (nums : List Nat) (st : CLIState) : CLIState :=
  { st with
      selected_files := nums.foldl
        (fun sel num =>
          match st.media_files[num - 1]? with
          | some fp => if 1 ≤ num then setErase sel fp else sel
          | none => sel)
        st.selected_files }

/-- The `a`/`all` command (cli_viewer.py line 289):
`self.selected_files = set(self.media_files)`. -/
def cli_select_all (st : CLIState) : CLIState :=
  { st with selected_files := st.media_files.dedup }

/-- The `c`/`clear` command (cli_viewer.py line 292):
`self.selected_files.clear()`. -/
def cli_clear_selection (st : CLIState) : CLIState :=
  { st with selected_files := [] }

/-- `CLIMediaViewer.keep_selected` (cli_viewer.py lines 210-223). -/
def cli_keep_selected (st : CLIState) : CLIState :=
  if st.selected_files = [] then st
  else
    { media_files := st.media_files.filter fun f => decide (f ∈ st.selected_files)
      selected_files := [] }

/-- The per-file loop of `CLIMediaViewer.delete_selected` (cli_viewer.py
lines 242-251), iterating over a copy of the selection.  `fails f = true`
models `os.remove(f)` raising (e.g. a permission error), which the
`except` swallows.  On a successful `os.remove`, the count is bumped and
the file is removed from `media_files` and then the selection; if the
file is unexpectedly absent from `media_files`, `list.remove` raises
`ValueError`, the `except` swallows it, and the selection is untouched. -/
def cli_delete_loop (fails : String → Bool) :
    List String → CLIState → Nat → CLIState × Nat
  | [], st, cnt => (st, cnt)
  | f :: fs, st, cnt =>
    if fails f then cli_delete_loop fails fs st cnt
    else if f ∈ st.media_files then
      cli_delete_loop fails fs
        { media_files := listRemove st.media_files f
          selected_files := setErase st.selected_files f }
        (cnt + 1)
    else cli_delete_loop fails fs st (cnt + 1)

/-- `CLIMediaViewer.delete_selected` (cli_viewer.py lines 225-253):
no-op when nothing is selected or the confirmation is refused; otherwise
run the per-file loop and report the number deleted. -/
def cli_delete_selected (confirmed : Bool) (fails : String → Bool)
    (st : CLIState) : CLIState × Nat :=
  if st.selected_files = [] then (st, 0)
  else if confirmed then cli_delete_loop fails st.selected_files st 0
  else (st, 0)

/-- The headless command loop's reachable states: any interleaving of
the state-mutating commands starting from a fresh `CLIMediaViewer`
(cli_viewer.py lines 16-20, 255-317). -/
inductive CLIReachable : CLIState → Prop
  | init : CLIReachable ⟨[], []⟩
  | load (ex : Bool) (files : List String) {s} :
      CLIReachable s → CLIReachable (cli_load_directory ex files s)
  | select (nums : List Nat) {s} :
      CLIReachable s → CLIReachable (cli_select_files nums s)
  | deselect (nums : List Nat) {s} :
      CLIReachable s → CLIReachable (cli_deselect_files nums s)
  | selectAll {s} : CLIReachable s → CLIReachable (cli_select_all s)
  | clearSel {s} : CLIReachable s → CLIReachable (cli_clear_selection s)
  | keep {s} : CLIReachable s → CLIReachable (cli_keep_selected s)
  | delete (confirmed : Bool) (fails : String → Bool) {s} :
      CLIReachable s → CLIReachable (cli_delete_selected confirmed fails s).1

/-! ## GUI viewer state machine (viewer.py)

Only the file-list/selection state is modelled; widget bookkeeping is
presentation.  The background load thread is modelled as completing
before the next user action (the single-worker assumption of the
design). -/

/-- Selection-relevant state of a `MediaBridgeViewer`
(viewer.py lines 26-27). -/
structure GuiState where
  media_files : List String
  selected_files : List String
deriving DecidableEq, Repr

/-- `MediaBridgeViewer.load_directory` (viewer.py lines 222-250): if the
directory does not exist, an error dialog is shown and the state is
untouched; otherwise `self.selected_files.clear()` runs and the worker
replaces `self.media_files` with the enumeration result. -/
def gui_load_directory (dirExists : Bool) (files : List String)
    (st : GuiState) : GuiState :=
  if dirExists then { media_files := files, selected_files := [] } else st

/-- `MediaBridgeViewer._toggle_selection` (viewer.py lines 374-384),
reached from the checkbox of grid item `i` (grid items are created from
`self.media_files`, viewer.py lines 261-265, 304-312). -/
def gui_toggle (i : Nat) (checked : Bool) (st : GuiState) : GuiState :=
  match st.media_files[i]? with
  | none => st
  | some fp =>
    if checked then { st with selected_files := setInsert fp st.selected_files }
    else { st with selected_files := setErase st.selected_files fp }

/-- `MediaBridgeViewer._select_all` (viewer.py lines 386-395):
`self.selected_files = set(self.media_files)`. -/
def gui_select_all (st : GuiState) : GuiState :=
  { st with selected_files := st.media_files.dedup }

/-- `MediaBridgeViewer._clear_selection` (viewer.py lines 397-406). -/
def gui_clear_selection (st : GuiState) : GuiState :=
  { st with selected_files := [] }

/-- `MediaBridgeViewer._keep_selected` (viewer.py lines 418-430). -/
def gui_keep_selected (st : GuiState) : GuiState :=
  if st.selected_files = [] then st
  else
    { media_files := st.media_files.filter fun f => decide (f ∈ st.selected_files)
      selected_files := [] }

/-- `MediaBridgeViewer._delete_selected` (viewer.py lines 432-454):
no-op without a selection or on a refused confirmation; otherwise the
files are removed from disk (per-file failures only printed) and
`_refresh_view` reloads the current directory, which re-enumerates and
clears the selection.  `hasDir` is `self.current_directory` being
non-empty, `dirExists`/`filesAfter` describe the reload. -/
def gui_delete_selected (confirmed hasDir dirExists : Bool)
    (filesAfter : List String) (st : GuiState) : GuiState :=
  if st.selected_files = [] then st
  else if confirmed then
    if hasDir then gui_load_directory dirExists filesAfter st else st
  else st

/-- Reachable states of the GUI viewer from a fresh window
(viewer.py lines 16-37). -/
inductive GuiReachable : GuiState → Prop
  | init : GuiReachable ⟨[], []⟩
  | load (ex : Bool) (files : List String) {s} :
      GuiReachable s → GuiReachable (gui_load_directory ex files s)
  | toggle (i : Nat) (checked : Bool) {s} :
      GuiReachable s → GuiReachable (gui_toggle i checked s)
  | selectAll {s} : GuiReachable s → GuiReachable (gui_select_all s)
  | clearSel {s} : GuiReachable s → GuiReachable (gui_clear_selection s)
  | keep {s} : GuiReachable s → GuiReachable (gui_keep_selected s)
  | delete (confirmed hasDir dirExists : Bool) (filesAfter : List String) {s} :
      GuiReachable s →
      GuiReachable (gui_delete_selected confirmed hasDir dirExists filesAfter s)

/-- Remote filesystem for the C5 counterexample: two distinct remote
identifiers sharing the basename `foo.jpg` with different contents. -/
def c5FS : String → Option File := fun p =>
  if p = "/a/foo.jpg" then some ⟨1, 10⟩
  else if p = "/b/foo.jpg" then some ⟨1, 20⟩ else none

/-- Injective thumbnail decoder for the C5 counterexample. -/
def c5Dec : Nat → Option Nat := fun c => some (c + 100)

/-- Filesystem for the C8 counterexample: one existing video file. -/
def c8FS : String → Option File := fun p =>
  if p = "/v/clip.mp4" then some ⟨100, 1⟩ else none

/-! ## Theorems -/

theorem cacheLookup_cons (k : String) (v : Nat) (c : List (String × Nat))
    (key : String) :
    cacheLookup ((k, v) :: c) key = if k = key then some v else cacheLookup c key :=
  rfl

theorem create_thumbnail_preserves_lookup (readThumb : String → Option Nat)
    (st : HState) (q fp : String) (t : Nat)
    (h : cacheLookup st.cache fp = some t) :
    cacheLookup (create_thumbnail readThumb st q).2.cache fp = some t := by
  unfold create_thumbnail
  cases hq : cacheLookup st.cache q with
  | some u => simpa using h
  | none =>
    cases hr : readThumb q with
    | some u =>
      simp only [cacheLookup_cons]
      by_cases hqf : q = fp
      · subst hqf; rw [hq] at h; cases h
      · simpa [hqf] using h
    | none => simpa using h

theorem runFetches_preserves_lookup (readThumb : String → Option Nat)
    (others : List String) (st : HState) (fp : String) (t : Nat)
    (h : cacheLookup st.cache fp = some t) :
    cacheLookup (runFetches readThumb others st).cache fp = some t := by
  induction others generalizing st with
  | nil => simpa [runFetches] using h
  | cons q qs ih =>
    have step := create_thumbnail_preserves_lookup readThumb st q fp t h
    simpa [runFetches] using ih _ step

theorem create_thumbnail_lookup_of_eq (readThumb : String → Option Nat)
    (st : HState) (fp : String) (img : Nat) (st' : HState)
    (h : create_thumbnail readThumb st fp = (some img, st')) :
    cacheLookup st'.cache fp = some img := by
  unfold create_thumbnail at h
  cases hq : cacheLookup st.cache fp with
  | some u =>
    rw [hq] at h
    obtain ⟨h1, h2⟩ := Prod.mk.injEq .. ▸ h
    cases h1; cases h2; exact hq
  | none =>
    rw [hq] at h
    cases hr : readThumb fp with
    | some u =>
      rw [hr] at h
      obtain ⟨h1, h2⟩ := Prod.mk.injEq .. ▸ h
      cases h1; subst h2
      simp [cacheLookup_cons]
    | none => rw [hr] at h; cases h

/-- C1: once a fetch (`create_thumbnail`) has produced a thumbnail for a
file identifier, every later fetch for that identifier — after any
further fetches — returns the identical cached image with the state
unchanged (no recomputation), while a fetch made after `clear_cache`
invokes the decoder again (the recomputation counter increases and the
result is recomputed from the file). -/
theorem c1_thumbnail_cache_reuse (readThumb : String → Option Nat)
    (st : HState) (fp : String) (img : Nat) (st' : HState)
    (h : create_thumbnail readThumb st fp = (some img, st'))
    (others : List String) :
    create_thumbnail readThumb (runFetches readThumb others st') fp
        = (some img, runFetches readThumb others st')
      ∧ (create_thumbnail readThumb
          (clear_cache (runFetches readThumb others st')) fp).1 = readThumb fp
      ∧ (create_thumbnail readThumb
          (clear_cache (runFetches readThumb others st')) fp).2.decodeCalls
        = (runFetches readThumb others st').decodeCalls + 1 := by
  have hl : cacheLookup (runFetches readThumb others st').cache fp = some img :=
    runFetches_preserves_lookup readThumb others st' fp img
      (create_thumbnail_lookup_of_eq readThumb st fp img st' h)
  refine ⟨?_, ?_, ?_⟩
  · unfold create_thumbnail
    rw [hl]
  · unfold create_thumbnail clear_cache
    simp only [cacheLookup]
    cases readThumb fp <;> simp
  · unfold create_thumbnail clear_cache
    simp only [cacheLookup]
    cases readThumb fp <;> simp

/-- Witness for C1 at a concrete decoder, state and path. -/
theorem c1_thumbnail_cache_reuse_witness :
    create_thumbnail (fun _ => some 7) ⟨[], 0⟩ "a.jpg"
        = (some 7, ⟨[("a.jpg", 7)], 1⟩)
      ∧ (create_thumbnail (fun _ => some 7)
            (runFetches (fun _ => some 7) ["b.png"] ⟨[("a.jpg", 7)], 1⟩) "a.jpg"
          = (some 7, runFetches (fun _ => some 7) ["b.png"] ⟨[("a.jpg", 7)], 1⟩)
        ∧ (create_thumbnail (fun _ => some 7)
            (clear_cache (runFetches (fun _ => some 7) ["b.png"]
              ⟨[("a.jpg", 7)], 1⟩)) "a.jpg").1 = (fun _ => some 7) "a.jpg"
        ∧ (create_thumbnail (fun _ => some 7)
            (clear_cache (runFetches (fun _ => some 7) ["b.png"]
              ⟨[("a.jpg", 7)], 1⟩)) "a.jpg").2.decodeCalls
          = (runFetches (fun _ => some 7) ["b.png"]
              ⟨[("a.jpg", 7)], 1⟩).decodeCalls + 1) :=
  ⟨rfl, c1_thumbnail_cache_reuse (fun _ => some 7) ⟨[], 0⟩ "a.jpg" 7
    ⟨[("a.jpg", 7)], 1⟩ rfl ["b.png"]⟩

/-- C9: the video-thumbnail frame seek target is
`max(1, int(frame_count * 0.1))` and hence is at least frame 1 for every
frame count — in particular for a 3-frame video. -/
theorem c9_video_seek_clamped :
    (∀ frame_count : Nat,
        target_frame frame_count = max 1 (frame_count / 10)
          ∧ 1 ≤ target_frame frame_count)
      ∧ target_frame 3 = 1 :=
  ⟨fun _ => ⟨rfl, le_max_left 1 _⟩, rfl⟩

/-- C4: when the transfer of a remote identifier fails, the remote
thumbnail operation returns `None` and the remote metadata operation
returns the download-failure record, for every decoder — so the
underlying local operation is never consulted — and the whole handler
state (cache, decode counter and scratch directory) is left unchanged:
no residue. -/
theorem c4_transfer_failure (remoteFS : String → Option File) (st : RState)
    (fp : String) (h : remoteFS fp = none) :
    (∀ decodeContent,
        remote_create_thumbnail remoteFS decodeContent st fp = (none, st))
      ∧ ∀ videoOpen imageOpen,
          remote_get_media_info remoteFS videoOpen imageOpen st fp
            = ({ error := some "Could not download file" }, st) := by
  constructor
  · intro decodeContent
    unfold remote_create_thumbnail
    rw [h]
  · intro videoOpen imageOpen
    unfold remote_get_media_info
    rw [h]

/-- Witness for C4 at a transfer that always fails. -/
theorem c4_transfer_failure_witness :
    ((fun _ : String => (none : Option File)) "r.jpg" = none)
      ∧ ((∀ decodeContent,
            remote_create_thumbnail (fun _ => none) decodeContent
              ⟨⟨[], 0⟩, []⟩ "r.jpg" = (none, ⟨⟨[], 0⟩, []⟩))
        ∧ ∀ videoOpen imageOpen,
            remote_get_media_info (fun _ => none) videoOpen imageOpen
              ⟨⟨[], 0⟩, []⟩ "r.jpg"
              = ({ error := some "Could not download file" }, ⟨⟨[], 0⟩, []⟩)) :=
  ⟨rfl, c4_transfer_failure (fun _ => none) ⟨⟨[], 0⟩, []⟩ "r.jpg" rfl⟩

/-- C3 counterexample: an open-externally access whose download succeeds
leaves the downloaded copy in the scratch area after the operation
completes, so the scratch area is not empty (and repeated accesses
accumulate) — contradicting the claim that every remote access deletes
its scratch copy. -/
theorem c3_open_externally_leaves_copy :
    (open_file_externally
        (fun p => if p = "/a/foo.jpg" then some ⟨5, 42⟩ else none)
        ⟨⟨[], 0⟩, []⟩ "/a/foo.jpg").1 = true
      ∧ (open_file_externally
          (fun p => if p = "/a/foo.jpg" then some ⟨5, 42⟩ else none)
          ⟨⟨[], 0⟩, []⟩ "/a/foo.jpg").2.scratch
        = [("/tmp/media_bridge_x/foo.jpg", ⟨5, 42⟩)] := by
  constructor <;> rfl

theorem scratchRemove_store (scr : List (String × File)) (k : String)
    (v : File) : scratchRemove (scratchStore scr k v) k = scratchRemove scr k := by
  simp [scratchRemove, scratchStore, List.filter_filter]

/-- C3 amended: the metadata and thumbnail accesses delete their scratch
copy unconditionally once the wrapped local operation has finished
(whether it succeeded or failed), so the scratch area never grows under
them (on a successful download the scratch copy named after the file is
gone afterwards; on a failed download the scratch area is untouched);
the open-externally access, however, leaves the downloaded copy
resident in the scratch area. -/
theorem c3_scratch_discipline (remoteFS : String → Option File)
    (decodeContent : Nat → Option Nat)
    (videoOpen : Nat → Except String (Option VideoProps))
    (imageOpen : Nat → Except String (Nat × Nat × String))
    (st : RState) (fp : String) :
    ((remote_create_thumbnail remoteFS decodeContent st fp).2.scratch
        = match remoteFS fp with
          | some _ => scratchRemove st.scratch (localPathOf fp)
          | none => st.scratch)
      ∧ ((remote_get_media_info remoteFS videoOpen imageOpen st fp).2.scratch
          = match remoteFS fp with
            | some _ => scratchRemove st.scratch (localPathOf fp)
            | none => st.scratch)
      ∧ (remote_create_thumbnail remoteFS decodeContent st fp).2.scratch.Sublist
          st.scratch
      ∧ (remote_get_media_info remoteFS videoOpen imageOpen st fp).2.scratch.Sublist
          st.scratch
      ∧ ((open_file_externally remoteFS st fp).2.scratch
          = match remoteFS fp with
            | some f => scratchStore st.scratch (localPathOf fp) f
            | none => st.scratch) := by
  have hthumb : (remote_create_thumbnail remoteFS decodeContent st fp).2.scratch
      = match remoteFS fp with
        | some _ => scratchRemove st.scratch (localPathOf fp)
        | none => st.scratch := by
    unfold remote_create_thumbnail
    cases remoteFS fp with
    | none => rfl
    | some f => simp [scratchRemove_store]
  have hinfo : (remote_get_media_info remoteFS videoOpen imageOpen st fp).2.scratch
      = match remoteFS fp with
        | some _ => scratchRemove st.scratch (localPathOf fp)
        | none => st.scratch := by
    unfold remote_get_media_info
    cases remoteFS fp with
    | none => rfl
    | some f => simp [scratchRemove_store]
  refine ⟨hthumb, hinfo, ?_, ?_, ?_⟩
  · rw [hthumb]
    cases remoteFS fp with
    | none => exact List.Sublist.refl _
    | some f => exact List.filter_sublist _
  · rw [hinfo]
    cases remoteFS fp with
    | none => exact List.Sublist.refl _
    | some f => exact List.filter_sublist _
  · unfold open_file_externally
    cases remoteFS fp with
    | none => rfl
    | some f => rfl

/-- C5: evaluation of the remote thumbnail path at the failing input.
`RemoteMediaHandler.create_thumbnail` delegates to the inherited cache
keyed by the *scratch path* `temp_dir/basename(filepath)`, not by the
remote identifier, so the two distinct identifiers `/a/foo.jpg` and
`/b/foo.jpg` share one cache entry: the fetch for `/b/foo.jpg` returns
the thumbnail computed from `/a/foo.jpg`'s contents (110) instead of the
one its own contents decode to (120). -/
theorem c5_remote_cache_collision :
    ("/a/foo.jpg" ≠ "/b/foo.jpg")
      ∧ c5FS "/a/foo.jpg" ≠ c5FS "/b/foo.jpg"
      ∧ (remote_create_thumbnail c5FS c5Dec ⟨⟨[], 0⟩, []⟩ "/a/foo.jpg").1
          = some 110
      ∧ (remote_create_thumbnail c5FS c5Dec
          (remote_create_thumbnail c5FS c5Dec ⟨⟨[], 0⟩, []⟩ "/a/foo.jpg").2
          "/b/foo.jpg").1 = some 110
      ∧ c5Dec 20 = some 120
      ∧ (remote_create_thumbnail c5FS c5Dec
          (remote_create_thumbnail c5FS c5Dec ⟨⟨[], 0⟩, []⟩ "/a/foo.jpg").2
          "/b/foo.jpg").1 ≠ some 120 := by
  refine ⟨by decide, by decide, rfl, rfl, rfl, by decide⟩

/-- C8 counterexample: for an existing video file whose decoder handle
fails to open (`cap.isOpened()` false), `get_media_info` raises nothing
but also sets no error field — the returned record silently lacks both
the video metadata and the error, contradicting the claim that an
open failure is encoded in the error field. -/
theorem c8_video_open_failure_silent :
    is_video_file "/v/clip.mp4" = true
      ∧ c8FS "/v/clip.mp4" = some ⟨100, 1⟩
      ∧ (get_media_info c8FS (fun _ => .ok none) (fun _ => .ok (1, 1, "PNG"))
          "/v/clip.mp4").error = none
      ∧ (get_media_info c8FS (fun _ => .ok none) (fun _ => .ok (1, 1, "PNG"))
          "/v/clip.mp4").width = none
      ∧ (get_media_info c8FS (fun _ => .ok none) (fun _ => .ok (1, 1, "PNG"))
          "/v/clip.mp4").size = some 100 := by
  refine ⟨by decide, by decide, ?_, ?_, ?_⟩ <;> rfl

/-- C8 amended: `get_media_info` is total (all failure is returned, not
thrown) and its error field is exactly: "File not found" for a missing
file, the exception message for a decode/parse failure in the video or
image branch — but a video decoder handle that fails to open yields a
record with no error field (and no metadata), rather than an encoded
error. -/
theorem c8_media_info_error_encoding (fs : String → Option File)
    (videoOpen : Nat → Except String (Option VideoProps))
    (imageOpen : Nat → Except String (Nat × Nat × String)) (fp : String) :
    (get_media_info fs videoOpen imageOpen fp).error
      = match fs fp with
        | none => some "File not found"
        | some f =>
          if is_video_file fp then
            match videoOpen f.content with
            | .error e => some e
            | .ok _ => none
          else
            match imageOpen f.content with
            | .error e => some e
            | .ok _ => none := by
  unfold get_media_info
  cases fs fp with
  | none => rfl
  | some f =>
    by_cases hv : is_video_file fp
    · simp only [hv, if_true]
      cases videoOpen f.content with
      | error e => rfl
      | ok o => cases o <;> rfl
    · simp only [hv, if_false]
      cases imageOpen f.content with
      | error e => rfl
      | ok whf => obtain ⟨w, h, fmt⟩ := whf; rfl

/-- C2 counterexample: in the headless viewer, `load_directory` does not
clear the selection, so after loading a directory containing `a.jpg`,
selecting it, and loading a directory containing only `b.jpg`, the
reachable state still has `a.jpg` selected although it is absent from
the file list — the invariant and the "cleared on directory reload"
part both fail. -/
theorem c2_cli_stale_selection :
    CLIReachable
        (cli_load_directory true ["b.jpg"]
          (cli_select_files [1] (cli_load_directory true ["a.jpg"] ⟨[], []⟩)))
      ∧ (cli_load_directory true ["b.jpg"]
          (cli_select_files [1]
            (cli_load_directory true ["a.jpg"] ⟨[], []⟩))).selected_files
        = ["a.jpg"]
      ∧ "a.jpg" ∉
          (cli_load_directory true ["b.jpg"]
            (cli_select_files [1]
              (cli_load_directory true ["a.jpg"] ⟨[], []⟩))).media_files := by
  refine ⟨?_, by decide, by decide⟩
  exact CLIReachable.load true ["b.jpg"]
    (CLIReachable.select [1] (CLIReachable.load true ["a.jpg"] CLIReachable.init))

theorem mem_setInsert {a x : String} {l : List String}
    (h : x ∈ setInsert a l) : x = a ∨ x ∈ l := by
  unfold setInsert at h
  by_cases ha : a ∈ l
  · simp only [ha, if_true] at h; exact Or.inr h
  · simp only [ha, if_false, List.mem_cons] at h; exact h

theorem mem_of_mem_setErase {x a : String} {l : List String}
    (h : x ∈ setErase l a) : x ∈ l := by
  unfold setErase at h
  exact List.mem_of_mem_filter h

theorem gui_load_preserves (ex : Bool) (files : List String) (st : GuiState)
    (h : ∀ f ∈ st.selected_files, f ∈ st.media_files) :
    ∀ f ∈ (gui_load_directory ex files st).selected_files,
      f ∈ (gui_load_directory ex files st).media_files := by
  cases ex with
  | true => intro f hf; cases hf
  | false => exact h

theorem gui_toggle_preserves (i : Nat) (checked : Bool) (st : GuiState)
    (h : ∀ f ∈ st.selected_files, f ∈ st.media_files) :
    ∀ f ∈ (gui_toggle i checked st).selected_files,
      f ∈ (gui_toggle i checked st).media_files := by
  unfold gui_toggle
  cases hm : st.media_files[i]? with
  | none => exact h
  | some fp =>
    cases checked with
    | true =>
      intro f hf
      simp only at hf ⊢
      rcases mem_setInsert hf with rfl | hf'
      · obtain ⟨hlt, hq⟩ := List.getElem?_eq_some_iff.mp hm
        exact hq ▸ List.getElem_mem hlt
      · exact h f hf'
    | false =>
      intro f hf
      simp only at hf ⊢
      exact h f (mem_of_mem_setErase hf)

theorem gui_select_all_preserves (st : GuiState)
    (_h : ∀ f ∈ st.selected_files, f ∈ st.media_files) :
    ∀ f ∈ (gui_select_all st).selected_files,
      f ∈ (gui_select_all st).media_files := by
  intro f hf
  exact List.mem_dedup.mp hf

theorem gui_keep_preserves (st : GuiState)
    (h : ∀ f ∈ st.selected_files, f ∈ st.media_files) :
    ∀ f ∈ (gui_keep_selected st).selected_files,
      f ∈ (gui_keep_selected st).media_files := by
  unfold gui_keep_selected
  by_cases hs : st.selected_files = []
  · simp only [if_pos hs]; exact h
  · simp only [hs, if_false]; intro f hf; cases hf

theorem gui_delete_preserves (confirmed hasDir dirExists : Bool)
    (filesAfter : List String) (st : GuiState)
    (h : ∀ f ∈ st.selected_files, f ∈ st.media_files) :
    ∀ f ∈ (gui_delete_selected confirmed hasDir dirExists filesAfter st).selected_files,
      f ∈ (gui_delete_selected confirmed hasDir dirExists filesAfter st).media_files := by
  unfold gui_delete_selected
  by_cases hs : st.selected_files = []
  · simp only [if_pos hs]; exact h
  · simp only [hs, if_false]
    cases confirmed with
    | false => exact h
    | true =>
      simp only [if_true]
      cases hasDir with
      | false => exact h
      | true =>
        simp only [if_true]
        exact gui_load_preserves dirExists filesAfter st h

/-- C2 amended: in the GUI viewer every reachable state satisfies the
invariant — every identifier in the SelectionSet is in the current file
list — and loading an existing directory clears the SelectionSet; the
headless variant violates both (its `load_directory` leaves the
SelectionSet untouched, see the counterexample). -/
theorem c2_gui_selection_invariant (s : GuiState) (h : GuiReachable s) :
    (∀ f ∈ s.selected_files, f ∈ s.media_files)
      ∧ ∀ (files : List String) (st : GuiState),
          (gui_load_directory true files st).selected_files = [] := by
  refine ⟨?_, fun files st => rfl⟩
  induction h with
  | init => intro f hf; cases hf
  | load ex files h ih => exact gui_load_preserves ex files _ ih
  | toggle i checked h ih => exact gui_toggle_preserves i checked _ ih
  | selectAll h ih => exact gui_select_all_preserves _ ih
  | clearSel h ih => intro f hf; cases hf
  | keep h ih => exact gui_keep_preserves _ ih
  | delete confirmed hasDir dirExists filesAfter h ih =>
    exact gui_delete_preserves confirmed hasDir dirExists filesAfter _ ih

/-- Witness for C2's amended theorem at a concrete reachable GUI state
(load a directory, then select its first file by checkbox). -/
theorem c2_gui_selection_invariant_witness :
    GuiReachable (gui_toggle 0 true (gui_load_directory true ["a.jpg"] ⟨[], []⟩))
      ∧ ((∀ f ∈ (gui_toggle 0 true
              (gui_load_directory true ["a.jpg"] ⟨[], []⟩)).selected_files,
            f ∈ (gui_toggle 0 true
              (gui_load_directory true ["a.jpg"] ⟨[], []⟩)).media_files)
        ∧ ∀ (files : List String) (st : GuiState),
            (gui_load_directory true files st).selected_files = []) :=
  ⟨GuiReachable.toggle 0 true (GuiReachable.load true ["a.jpg"] GuiReachable.init),
    c2_gui_selection_invariant _
      (GuiReachable.toggle 0 true
        (GuiReachable.load true ["a.jpg"] GuiReachable.init))⟩

theorem keep_filter_mem (media sel : List String)
    (hsub : ∀ f ∈ sel, f ∈ media) (f : String) :
    (f ∈ media.filter fun g => decide (g ∈ sel)) ↔ f ∈ sel := by
  rw [List.mem_filter]
  constructor
  · rintro ⟨-, hf⟩; exact of_decide_eq_true hf
  · intro hf; exact ⟨hsub f hf, decide_eq_true hf⟩

/-- C10: with a non-empty SelectionSet, the keep-only-selected operation
(both the headless `keep_selected` and the GUI `_keep_selected`)
replaces the file list with exactly the previously selected files in
their original relative order (a filter of the original list) and
empties the SelectionSet; with an empty SelectionSet it changes
nothing.  "Exactly the selected files" uses the selection invariant
(SelectionSet ⊆ file list). -/
theorem c10_keep_selected (stc : CLIState) (stg : GuiState)
    (hc : ∀ f ∈ stc.selected_files, f ∈ stc.media_files)
    (hg : ∀ f ∈ stg.selected_files, f ∈ stg.media_files) :
    (stc.selected_files ≠ [] →
        (cli_keep_selected stc).media_files
            = stc.media_files.filter (fun f => decide (f ∈ stc.selected_files))
          ∧ (cli_keep_selected stc).media_files.Sublist stc.media_files
          ∧ (∀ f, f ∈ (cli_keep_selected stc).media_files ↔ f ∈ stc.selected_files)
          ∧ (cli_keep_selected stc).selected_files = [])
      ∧ (stc.selected_files = [] → cli_keep_selected stc = stc)
      ∧ (stg.selected_files ≠ [] →
          (gui_keep_selected stg).media_files
              = stg.media_files.filter (fun f => decide (f ∈ stg.selected_files))
            ∧ (gui_keep_selected stg).media_files.Sublist stg.media_files
            ∧ (∀ f, f ∈ (gui_keep_selected stg).media_files ↔ f ∈ stg.selected_files)
            ∧ (gui_keep_selected stg).selected_files = [])
      ∧ (stg.selected_files = [] → gui_keep_selected stg = stg) := by
  refine ⟨?_, ?_, ?_, ?_⟩
  · intro hne
    unfold cli_keep_selected
    simp only [if_neg hne]
    exact ⟨trivial, List.filter_sublist _, keep_filter_mem _ _ hc, trivial⟩
  · intro he
    unfold cli_keep_selected
    simp only [he, if_true]
  · intro hne
    unfold gui_keep_selected
    simp only [if_neg hne]
    exact ⟨trivial, List.filter_sublist _, keep_filter_mem _ _ hg, trivial⟩
  · intro he
    unfold gui_keep_selected
    simp only [he, if_true]

/-- Witness for C10 at concrete states (headless viewer with `b.jpg`
selected; GUI viewer with nothing selected). -/
theorem c10_keep_selected_witness :
    (∀ f ∈ (⟨["a.jpg", "b.jpg"], ["b.jpg"]⟩ : CLIState).selected_files,
        f ∈ (⟨["a.jpg", "b.jpg"], ["b.jpg"]⟩ : CLIState).media_files)
      ∧ (∀ f ∈ (⟨["c.jpg"], []⟩ : GuiState).selected_files,
          f ∈ (⟨["c.jpg"], []⟩ : GuiState).media_files)
      ∧ (cli_keep_selected ⟨["a.jpg", "b.jpg"], ["b.jpg"]⟩).selected_files = []
      ∧ gui_keep_selected ⟨["c.jpg"], []⟩ = ⟨["c.jpg"], []⟩ :=
  ⟨by decide, by decide,
    ((c10_keep_selected ⟨["a.jpg", "b.jpg"], ["b.jpg"]⟩ ⟨["c.jpg"], []⟩
        (by decide) (by decide)).1 (by decide)).2.2.2,
    (c10_keep_selected ⟨["a.jpg", "b.jpg"], ["b.jpg"]⟩ ⟨["c.jpg"], []⟩
        (by decide) (by decide)).2.2.2 rfl⟩

theorem listRemove_eq_filter (l : List String) (a : String) (h : l.Nodup) :
    listRemove l a = l.filter (fun x => decide (x ≠ a)) := by
  induction l with
  | nil => rfl
  | cons x xs ih =>
    obtain ⟨hx, hxs⟩ := List.nodup_cons.mp h
    by_cases hxa : x = a
    · subst hxa
      simp only [listRemove, if_pos rfl]
      rw [List.filter_cons_of_neg (by simp)]
      refine (List.filter_eq_self.mpr fun b hb => ?_).symm
      have hbx : b ≠ x := fun e => hx (e ▸ hb)
      exact decide_eq_true hbx
    · simp only [listRemove, if_neg hxa]
      rw [List.filter_cons_of_pos (by simp [hxa]), ih hxs]

theorem cli_delete_loop_spec (fails : String → Bool) (L : List String) :
    ∀ (st : CLIState) (cnt : Nat), L.Nodup →
      (∀ f ∈ L, f ∈ st.selected_files) →
      st.selected_files.Nodup → st.media_files.Nodup →
      (∀ f ∈ st.selected_files, f ∈ st.media_files) →
      (cli_delete_loop fails L st cnt).2
          = cnt + (L.filter (fun f => !fails f)).length
        ∧ (cli_delete_loop fails L st cnt).1.media_files
          = st.media_files.filter (fun m => !(decide (m ∈ L) && !fails m))
        ∧ (cli_delete_loop fails L st cnt).1.selected_files
          = st.selected_files.filter (fun m => !(decide (m ∈ L) && !fails m)) := by
  induction L with
  | nil =>
    intro st cnt _ _ _ _ _
    refine ⟨by simp [cli_delete_loop], ?_, ?_⟩ <;>
      simp [cli_delete_loop, List.filter_eq_self]
  | cons f fs ih =>
    intro st cnt hL hLsub hsel hmed hsub
    obtain ⟨hffs, hfs⟩ := List.nodup_cons.mp hL
    by_cases hf : fails f
    · have heq : cli_delete_loop fails (f :: fs) st cnt
          = cli_delete_loop fails fs st cnt := by
        simp only [cli_delete_loop, hf, if_true]
      obtain ⟨ic, im, is⟩ := ih st cnt hfs
        (fun x hx => hLsub x (List.mem_cons_of_mem f hx)) hsel hmed hsub
      rw [heq]
      have hpt : ∀ m, (!(decide (m ∈ fs) && !fails m))
          = (!(decide (m ∈ f :: fs) && !fails m)) := by
        intro m
        by_cases hmf : m = f
        · subst hmf; simp [hf]
        · simp [List.mem_cons, hmf]
      refine ⟨?_, ?_, ?_⟩
      · rw [ic, List.filter_cons_of_neg (by simp [hf])]
      · rw [im]; exact List.filter_congr fun m _ => hpt m
      · rw [is]; exact List.filter_congr fun m _ => hpt m
    · have hfsel : f ∈ st.selected_files := hLsub f (List.mem_cons_self f fs)
      have hfmed : f ∈ st.media_files := hsub f hfsel
      have heq : cli_delete_loop fails (f :: fs) st cnt
          = cli_delete_loop fails fs
              ⟨listRemove st.media_files f, setErase st.selected_files f⟩
              (cnt + 1) := by
        simp only [cli_delete_loop, hf, if_false, Bool.false_eq_true, hfmed, if_true]
      have hmed' : listRemove st.media_files f
          = st.media_files.filter (fun x => decide (x ≠ f)) :=
        listRemove_eq_filter _ _ hmed
      obtain ⟨ic, im, is⟩ := ih
        ⟨listRemove st.media_files f, setErase st.selected_files f⟩ (cnt + 1)
        hfs
        (fun x hx => by
          have hxsel : x ∈ st.selected_files :=
            hLsub x (List.mem_cons_of_mem f hx)
          have hxf : x ≠ f := fun e => hffs (e ▸ hx)
          show x ∈ List.filter _ st.selected_files
          exact List.mem_filter.mpr ⟨hxsel, decide_eq_true hxf⟩)
        (hsel.filter _)
        (by
          show (listRemove st.media_files f).Nodup
          rw [hmed']
          exact hmed.filter _)
        (fun x hx => by
          have hx' : x ∈ List.filter (fun y => decide (y ≠ f))
              st.selected_files := hx
          obtain ⟨hxsel, hxf⟩ := List.mem_filter.mp hx'
          show x ∈ listRemove st.media_files f
          rw [hmed']
          exact List.mem_filter.mpr ⟨hsub x hxsel, hxf⟩)
      rw [heq]
      have hpt : ∀ m, (!(decide (m ∈ fs) && !fails m) && decide (m ≠ f))
          = (!(decide (m ∈ f :: fs) && !fails m)) := by
        intro m
        by_cases hmf : m = f
        · subst hmf; simp [hf]
        · simp [List.mem_cons, hmf]
      refine ⟨?_, ?_, ?_⟩
      · rw [ic, List.filter_cons_of_pos (by simp [hf])]
        simp [Nat.add_comm, Nat.add_assoc, Nat.add_left_comm]
      · rw [im]
        show (listRemove st.media_files f).filter _ = _
        rw [hmed', List.filter_filter]
        exact List.filter_congr fun m _ => hpt m
      · rw [is]
        show (setErase st.selected_files f).filter _ = _
        unfold setErase
        rw [List.filter_filter]
        exact List.filter_congr fun m _ => hpt m

/-- C7: a confirmed bulk delete of the N selected files, of which the
ones outside `fails` succeed, never aborts: it reports exactly M = the
number of successful removals, removes from the file list exactly those
M files (everything else, in particular the N−M failed selected files,
stays), and removes from the SelectionSet exactly the M that succeeded,
leaving the N−M failed ones selected. -/
theorem c7_delete_selected_partial_failure (fails : String → Bool)
    (st : CLIState) (hne : st.selected_files ≠ [])
    (hsel : st.selected_files.Nodup) (hmed : st.media_files.Nodup)
    (hsub : ∀ f ∈ st.selected_files, f ∈ st.media_files) :
    (cli_delete_selected true fails st).2
        = (st.selected_files.filter (fun f => !fails f)).length
      ∧ (cli_delete_selected true fails st).1.media_files
        = st.media_files.filter
            (fun m => !(decide (m ∈ st.selected_files) && !fails m))
      ∧ (cli_delete_selected true fails st).1.selected_files
        = st.selected_files.filter fails
      ∧ (cli_delete_selected true fails st).1.selected_files.length
        = st.selected_files.length
            - (st.selected_files.filter (fun f => !fails f)).length
      ∧ (∀ f ∈ st.selected_files,
          (f ∈ (cli_delete_selected true fails st).1.media_files ↔ fails f))
      ∧ ∀ f, f ∉ st.selected_files →
          (f ∈ (cli_delete_selected true fails st).1.media_files
            ↔ f ∈ st.media_files) := by
  have hds : cli_delete_selected true fails st
      = cli_delete_loop fails st.selected_files st 0 := by
    unfold cli_delete_selected
    rw [if_neg hne, if_pos rfl]
  obtain ⟨ic, im, is⟩ := cli_delete_loop_spec fails st.selected_files st 0
    hsel (fun _ h => h) hsel hmed hsub
  have hselfin : (cli_delete_selected true fails st).1.selected_files
      = st.selected_files.filter fails := by
    rw [hds, is]
    exact List.filter_congr fun m hm => by simp [hm]
  refine ⟨by rw [hds, ic, Nat.zero_add], by rw [hds, im], hselfin, ?_, ?_, ?_⟩
  · rw [hselfin]
    have hlen : st.selected_files.length
        = (st.selected_files.filter fails).length
            + (st.selected_files.filter (fun a => !fails a)).length :=
      List.length_eq_length_filter_add fails
    omega
  · intro f hfsel
    rw [hds, im, List.mem_filter]
    constructor
    · rintro ⟨-, hp⟩
      by_contra hnf
      simp [hfsel, hnf] at hp
    · intro hp
      exact ⟨hsub f hfsel, by simp [hp]⟩
  · intro f hfsel
    rw [hds, im, List.mem_filter]
    constructor
    · rintro ⟨hm, -⟩; exact hm
    · intro hm
      exact ⟨hm, by simp [hfsel]⟩

/-- Witness for C7: three files, two selected, of which deleting `a.jpg`
fails with a permission error and deleting `c.jpg` succeeds. -/
theorem c7_delete_selected_partial_failure_witness :
    ((⟨["a.jpg", "b.jpg", "c.jpg"], ["a.jpg", "c.jpg"]⟩ :
        CLIState).selected_files ≠ []
      ∧ (⟨["a.jpg", "b.jpg", "c.jpg"], ["a.jpg", "c.jpg"]⟩ :
          CLIState).selected_files.Nodup
      ∧ (⟨["a.jpg", "b.jpg", "c.jpg"], ["a.jpg", "c.jpg"]⟩ :
          CLIState).media_files.Nodup
      ∧ (∀ f ∈ (⟨["a.jpg", "b.jpg", "c.jpg"], ["a.jpg", "c.jpg"]⟩ :
            CLIState).selected_files,
          f ∈ (⟨["a.jpg", "b.jpg", "c.jpg"], ["a.jpg", "c.jpg"]⟩ :
            CLIState).media_files))
      ∧ (cli_delete_selected true (fun f => decide (f = "a.jpg"))
          ⟨["a.jpg", "b.jpg", "c.jpg"], ["a.jpg", "c.jpg"]⟩).2 = 1
      ∧ (cli_delete_selected true (fun f => decide (f = "a.jpg"))
          ⟨["a.jpg", "b.jpg", "c.jpg"], ["a.jpg", "c.jpg"]⟩).1.media_files
        = ["a.jpg", "b.jpg"]
      ∧ (cli_delete_selected true (fun f => decide (f = "a.jpg"))
          ⟨["a.jpg", "b.jpg", "c.jpg"], ["a.jpg", "c.jpg"]⟩).1.selected_files
        = ["a.jpg"] := by
  have h := c7_delete_selected_partial_failure (fun f => decide (f = "a.jpg"))
    ⟨["a.jpg", "b.jpg", "c.jpg"], ["a.jpg", "c.jpg"]⟩
    (by decide) (by decide) (by decide) (by decide)
  exact ⟨⟨by decide, by decide, by decide, by decide⟩,
    by rw [h.1]; decide, by rw [h.2.1]; decide, by rw [h.2.2.1]; decide⟩

theorem sep_inj : ∀ (a b n₁ n₂ : List Char), '/' ∉ n₁ → '/' ∉ n₂ →
    a ++ '/' :: n₁ = b ++ '/' :: n₂ → a = b ∧ n₁ = n₂ := by
  intro a
  induction a with
  | nil =>
    intro b n₁ n₂ h1 h2 h
    cases b with
    | nil => simpa using h
    | cons d bs =>
      exfalso
      simp only [List.nil_append, List.cons_append, List.cons.injEq] at h
      obtain ⟨hd, ht⟩ := h
      exact h1 (ht ▸ List.mem_append_right bs (hd ▸ List.mem_cons_self '/' n₂))
  | cons c as ih =>
    intro b n₁ n₂ h1 h2 h
    cases b with
    | nil =>
      exfalso
      simp only [List.nil_append, List.cons_append, List.cons.injEq] at h
      obtain ⟨hd, ht⟩ := h
      exact h2 (ht ▸ List.mem_append_right as (hd ▸ List.mem_cons_self '/' n₁))
    | cons d bs =>
      simp only [List.cons_append, List.cons.injEq] at h
      obtain ⟨hc, ht⟩ := h
      obtain ⟨hab, hn⟩ := ih bs n₁ n₂ h1 h2 ht
      exact ⟨by rw [hc, hab], hn⟩

theorem joinPath_data (r n : String) :
    (joinPath r n).data = r.data ++ '/' :: n.data := by
  show (r ++ "/" ++ n).data = r.data ++ '/' :: n.data
  rw [String.data_append, String.data_append, List.append_assoc]
  rfl

theorem joinPath_inj {r₁ n₁ r₂ n₂ : String} (h1 : '/' ∉ n₁.data)
    (h2 : '/' ∉ n₂.data) (h : joinPath r₁ n₁ = joinPath r₂ n₂) :
    r₁ = r₂ ∧ n₁ = n₂ := by
  have hd := congrArg String.data h
  rw [joinPath_data, joinPath_data] at hd
  obtain ⟨hr, hn⟩ := sep_inj r₁.data r₂.data n₁.data n₂.data h1 h2 hd
  exact ⟨String.ext hr, String.ext hn⟩

theorem joinPath_right_inj (r : String) :
    Function.Injective (fun n => joinPath r n) := by
  intro n₁ n₂ h
  have hd := congrArg String.data h
  simp only [joinPath_data] at hd
  exact String.ext (List.cons.injEq .. ▸ List.append_cancel_left hd).2

theorem c6_nonrec_nodup (directory : String) (entries : List (String × Bool))
    (h : (entries.map Prod.fst).Nodup) :
    ((entries.filter
        (fun e => e.2 && is_supported_file (joinPath directory e.1))).map
      (fun e => joinPath directory e.1)).Nodup := by
  have h1 : ((entries.filter
        (fun e => e.2 && is_supported_file (joinPath directory e.1))).map
      Prod.fst).Nodup :=
    h.sublist (List.Sublist.map Prod.fst (List.filter_sublist entries))
  have h2 := h1.map (joinPath_right_inj directory)
  simpa [List.map_map, Function.comp_def] using h2

theorem c6_rec_nodup (walk : List (String × List String))
    (hw1 : (walk.map Prod.fst).Nodup)
    (hw2 : ∀ rn ∈ walk, rn.2.Nodup)
    (hw3 : ∀ rn ∈ walk, ∀ n ∈ rn.2, '/' ∉ n.data) :
    (walk.flatMap fun rn =>
      (rn.2.filter fun n => is_supported_file (joinPath rn.1 n)).map
        fun n => joinPath rn.1 n).Nodup := by
  rw [List.nodup_flatMap]
  constructor
  · intro rn hrn
    exact ((hw2 rn hrn).sublist (List.filter_sublist _)).map
      (joinPath_right_inj rn.1)
  · have hp : walk.Pairwise (fun x y => x.1 ≠ y.1) := List.pairwise_map.mp hw1
    refine hp.imp_of_mem ?_
    intro x y hx hy hne
    simp only [Function.onFun]
    intro p hpx hpy
    obtain ⟨nx, hnxmem, rfl⟩ := List.mem_map.mp hpx
    obtain ⟨ny, hnymem, he⟩ := List.mem_map.mp hpy
    have hnx : nx ∈ x.2 := List.mem_of_mem_filter hnxmem
    have hny : ny ∈ y.2 := List.mem_of_mem_filter hnymem
    exact hne (joinPath_inj (hw3 x hx nx hnx) (hw3 y hy ny hny) he.symm).1

theorem mergeSort_props (files : List String) (hnd : files.Nodup)
    (hsup : ∀ f ∈ files, is_supported_file f = true) :
    (files.mergeSort).Sorted (· ≤ ·) ∧ (files.mergeSort).Nodup
      ∧ ∀ f ∈ files.mergeSort, is_supported_file f = true := by
  refine ⟨List.sorted_mergeSort' files, ?_, ?_⟩
  · exact ((List.mergeSort_perm files _).nodup_iff).mpr hnd
  · intro f hf
    exact hsup f (List.mem_mergeSort.mp hf)

/-- C6: for every directory and recursive flag (under the filesystem
well-formedness facts that `os.walk` yields distinct roots with
slash-free, per-root-distinct filenames and `os.listdir` yields distinct
names), the local enumerator returns a lexicographically sorted list
with no duplicate identifiers in which every identifier passes the
extension allow-list check `is_supported_file` (lower-cased extension in
the fixed image/video suffix sets). -/
theorem c6_enumerator_sorted_nodup_supported (directory : String)
    (recursive : Bool) (walk : List (String × List String))
    (listing : Option (List (String × Bool)))
    (hw1 : (walk.map Prod.fst).Nodup)
    (hw2 : ∀ rn ∈ walk, rn.2.Nodup)
    (hw3 : ∀ rn ∈ walk, ∀ n ∈ rn.2, '/' ∉ n.data)
    (hl : ((listing.getD []).map Prod.fst).Nodup) :
    (get_files_in_directory directory recursive walk listing).Sorted (· ≤ ·)
      ∧ (get_files_in_directory directory recursive walk listing).Nodup
      ∧ ∀ f ∈ get_files_in_directory directory recursive walk listing,
          is_supported_file f = true := by
  cases recursive with
  | true =>
    have heq : get_files_in_directory directory true walk listing
        = (walk.flatMap fun rn =>
            (rn.2.filter fun n => is_supported_file (joinPath rn.1 n)).map
              fun n => joinPath rn.1 n).mergeSort := rfl
    rw [heq]
    refine mergeSort_props _ (c6_rec_nodup walk hw1 hw2 hw3) ?_
    intro f hf
    obtain ⟨rn, hrn, hf2⟩ := List.mem_flatMap.mp hf
    obtain ⟨n, hn, rfl⟩ := List.mem_map.mp hf2
    have hp := List.of_mem_filter hn
    exact hp
  | false =>
    cases listing with
    | none =>
      have heq : get_files_in_directory directory false walk none
          = ([] : List String).mergeSort := rfl
      rw [heq]
      exact mergeSort_props [] List.nodup_nil (by intro f hf; cases hf)
    | some entries =>
      have heq : get_files_in_directory directory false walk (some entries)
          = ((entries.filter
              (fun e => e.2 && is_supported_file (joinPath directory e.1))).map
            (fun e => joinPath directory e.1)).mergeSort := rfl
      rw [heq]
      refine mergeSort_props _ (c6_nonrec_nodup directory entries hl) ?_
      intro f hf
      obtain ⟨e, he, rfl⟩ := List.mem_map.mp hf
      have hp := List.of_mem_filter he
      simp only [Bool.and_eq_true] at hp
      exact hp.2

/-- Witness for C6 at a concrete recursive walk with two roots. -/
theorem c6_enumerator_sorted_nodup_supported_witness :
    ((([("/r", ["b.JPG", "a.png", "x.txt"]), ("/r/sub", ["a.png"])] :
          List (String × List String)).map Prod.fst).Nodup
      ∧ (∀ rn ∈ ([("/r", ["b.JPG", "a.png", "x.txt"]), ("/r/sub", ["a.png"])] :
            List (String × List String)), rn.2.Nodup)
      ∧ (∀ rn ∈ ([("/r", ["b.JPG", "a.png", "x.txt"]), ("/r/sub", ["a.png"])] :
            List (String × List String)), ∀ n ∈ rn.2, '/' ∉ n.data)
      ∧ (((none : Option (List (String × Bool))).getD []).map Prod.fst).Nodup)
      ∧ ((get_files_in_directory "/r" true
            [("/r", ["b.JPG", "a.png", "x.txt"]), ("/r/sub", ["a.png"])]
            none).Sorted (· ≤ ·)
        ∧ (get_files_in_directory "/r" true
            [("/r", ["b.JPG", "a.png", "x.txt"]), ("/r/sub", ["a.png"])]
            none).Nodup
        ∧ ∀ f ∈ get_files_in_directory "/r" true
            [("/r", ["b.JPG", "a.png", "x.txt"]), ("/r/sub", ["a.png"])] none,
            is_supported_file f = true) :=
  ⟨⟨by decide, by decide, by decide, by decide⟩,
    c6_enumerator_sorted_nodup_supported "/r" true
      [("/r", ["b.JPG", "a.png", "x.txt"]), ("/r/sub", ["a.png"])] none
      (by decide) (by decide) (by decide) (by decide)⟩

end MediaBridge
